import Mathlib

/-!
Verification of the coordination core of the DuckDB notebook extension:
the cell execution scheduler (`runCell` in the webview application),
the file access broker (pending request map in the webview, the
`requestFileAccess` handler in the extension host), and the chunked
bulk-transfer protocol (the COPY export loop in `runCell`, the
`saveFileStart`/`saveFileChunk`/`saveFileEnd` handlers and the single
FIFO write queue in the extension host).
-/

set_option maxHeartbeats 1000000
set_option maxRecDepth 8000

namespace DuckDBNotebook

/-- A byte buffer (contents of a JS `Uint8Array`), modelled as a list of
naturals. -/
abbrev Buffer := List Nat

/-- Messages posted from the webview (sandbox) to the extension host that
the coordination core cares about. Every message carries a `type` tag in
the source; here each tag is a constructor. -/
inductive HostMsg where
  | saveFileStart (name : String)
  | saveFileChunk (name : String) (data : Buffer)
  | saveFileEnd (name : String)
  | requestFileAccess (filePath : String)
  deriving DecidableEq

/-- `const CHUNK_SIZE = 1024 * 1024` from the chunked-transfer block of
`runCell`. -/
def CHUNK_SIZE : Nat := 1024 * 1024

/-- JS `buffer.slice(s, e)`: the elements with indices in `[s, e)`. -/
def slice (buf : Buffer) (s e : Nat) : Buffer := (buf.drop s).take (e - s)

/-- `const chunks = Math.ceil(totalSize / CHUNK_SIZE)` on naturals. -/
def numChunks (totalSize : Nat) : Nat := (totalSize + CHUNK_SIZE - 1) / CHUNK_SIZE

/-- The chunk produced in iteration `i` of the send loop:
`start = i * CHUNK_SIZE; end = Math.min(start + CHUNK_SIZE, totalSize);
chunk = buffer.slice(start, end)`. -/
def chunkAt (buf : Buffer) (i : Nat) : Buffer :=
  slice buf (i * CHUNK_SIZE) (min (i * CHUNK_SIZE + CHUNK_SIZE) buf.length)

/-- All chunks emitted by the loop, in loop order `i = 0 .. chunks - 1`. -/
def chunksFrom (buf : Buffer) : List Buffer :=
  (List.range (numChunks buf.length)).map (chunkAt buf)

/-- The exact message sequence emitted by the COPY export block of
`runCell`: one `saveFileStart`, the chunks in loop order, one
`saveFileEnd`. -/
def sendCopyExport (name : String) (buf : Buffer) : List HostMsg :=
  HostMsg.saveFileStart name ::
    ((chunksFrom buf).map (HostMsg.saveFileChunk name) ++ [HostMsg.saveFileEnd name])

/-- File-mutation operations appended to the host's single global write
queue (`_fileWriteQueue`) by the `saveFileStart` / `saveFileChunk` /
`saveFileEnd` message handlers in the extension host. -/
inductive WriteOp where
  | truncate (name : String)
  | append (name : String) (data : Buffer)
  | finalize (name : String)
  deriving DecidableEq

/-- Which queued operation a given webview message enqueues on the host:
`saveFileStart` creates/overwrites the destination with empty content,
`saveFileChunk` appends the chunk bytes (via `fs.appendFileSync` on a
local filesystem, or read-concatenate-rewrite on a virtual one — both
append the chunk to the current contents), `saveFileEnd` finalizes
(a user notification; the bytes are untouched). Other messages are not
routed through the write queue. -/
def enqueueOp : HostMsg → Option WriteOp
  | .saveFileStart n => some (.truncate n)
  | .saveFileChunk n d => some (.append n d)
  | .saveFileEnd n => some (.finalize n)
  | .requestFileAccess _ => none

/-- The host appends one operation per delivered message to the single
promise chain, so the executed operation order is the FIFO delivery
order of the messages. -/
def processQueue (msgs : List HostMsg) : List WriteOp :=
  msgs.filterMap enqueueOp

/-- Effect of one queued operation on the destination file's bytes
(single destination view: all three operations of one transfer name the
same destination). -/
def applyWrite (file : Buffer) : WriteOp → Buffer
  | .truncate _ => []
  | .append _ d => file ++ d
  | .finalize _ => file

/-- Effect of a queued operation sequence, executed in queue order. -/
def applyWrites (file : Buffer) (ops : List WriteOp) : Buffer :=
  ops.foldl applyWrite file

/-- Whether a webview message is one of the three save messages for the
destination `n`. -/
def saveMsgFor (n : String) : HostMsg → Bool
  | .saveFileStart m => m == n
  | .saveFileChunk m _ => m == n
  | .saveFileEnd m => m == n
  | .requestFileAccess _ => false

/-- Whether a queued write operation targets the destination `n`. -/
def opFor (n : String) : WriteOp → Bool
  | .truncate m => m == n
  | .append m _ => m == n
  | .finalize m => m == n

/-- Cell status, from the `status` field of `CellData`. -/
inductive Status where
  | idle
  | running
  | success
  | error
  deriving DecidableEq

/-- One materialized result row, `row.toJSON()`: a JSON object given as a
key-value list. -/
abbrev Row := List (String × String)

/-- One result schema field; `type` holds `String(f.type)`. -/
structure Field where
  name : String
  type : String
  deriving DecidableEq

/-- An engine query result: the materialized rows (`result.toArray()`)
and the schema fields (`result.schema.fields`). -/
structure QueryResult where
  rows : List Row
  fields : List Field
  deriving DecidableEq

/-- `CellData` from the webview application. -/
structure Cell where
  id : String
  query : String
  status : Status
  error : Option String := none
  rows : Option (List Row) := none
  columns : Option (List String) := none
  columnTypes : Option (List String) := none
  executionTime : Option Nat := none
  deriving DecidableEq

/-- The literal part of the missing-file signature regex used in
`executeQuery`:
`/IO Error: No files found that match the pattern "([^"]+)"/`. -/
def missingFilePattern : List Char :=
  "IO Error: No files found that match the pattern \"".data

/-- The capture group `([^"]+)` followed by its closing quote: at least
one non-quote character, then a quote. -/
def captureToQuote (cs : List Char) : Option String :=
  let cap := cs.takeWhile (fun c => c != '\"')
  if cap.length ≠ 0 ∧ (cs.drop cap.length).head? = some '\"' then
    some (String.mk cap)
  else none

/-- `errorMsg.match(...)` for the missing-file signature: scan for the
leftmost occurrence of the literal prefix at which the capture group also
succeeds, and return the captured path. -/
def findMissingFile : List Char → Option String
  | [] => none
  | c :: cs =>
    if (c :: cs).take missingFilePattern.length = missingFilePattern then
      match captureToQuote ((c :: cs).drop missingFilePattern.length) with
      | some cap => some cap
      | none => findMissingFile cs
    else findMissingFile cs

/-- The whitespace characters removed by JS `String.prototype.trim`
(ASCII whitespace plus no-break space and the BOM; further exotic Unicode
space separators are not distinguished by any query text considered
here). -/
def isJsWhitespace (c : Char) : Bool :=
  c = ' ' || c = '\t' || c = '\n' || c = '\r' || c = '\x0b' || c = '\x0c' ||
    c = '\u00A0' || c = '\uFEFF'

/-- `!cell.query.trim()`: the query is blank iff every character is
whitespace (so that `trim` leaves the empty string, which is falsy). -/
def isBlankQuery (q : String) : Bool :=
  q.data.all isJsWhitespace

/-- The environment `runCell` interacts with, one value per external
effect in call order:
* `connPresent` — whether `window.duckdbConnection` is non-null;
* `engine k` — the outcome of the (k+1)-th `conn.query(cell.query)`
  call of this run (`.error` models a thrown engine error with its
  message);
* `accessResult` — the outcome of `requestFileAccess(filePath)`: the
  granted bytes, or the rejection reason carried by `accessErr.message`;
* `registerResult` — the outcome of `db.registerFileBuffer`;
* `elapsed` — `performance.now() - startTime` at the success update;
* `copyDetect` — the captured target name of the
  `COPY ... TO '...'` regex match on the cell's query (`none` when the
  regex does not match); the JS regex engine itself is not re-modelled,
  so theorems quantify over both outcomes;
* `copyFileResult` — the outcome of `db.copyFileToBuffer(fileName)`. -/
structure RunEnv where
  connPresent : Bool
  engine : Nat → Except String QueryResult
  accessResult : Except String Buffer
  registerResult : Except String Unit
  elapsed : Nat
  copyDetect : Option String
  copyFileResult : Except String Buffer

/-- `executeQuery` from `runCell`: try the query; on an engine error
matching the missing-file signature, request access from the extension
host, register the granted bytes, and retry the query exactly once; any
failure inside that recovery block (denial, registration failure, or the
failing retry itself) is rethrown as
`"File Access Denied: " ++ message`. Returns the result, the number of
`conn.query` calls made, and the messages posted to the host. -/
def executeQuery (env : RunEnv) :
    Except String QueryResult × Nat × List HostMsg :=
  match env.engine 0 with
  | .ok r => (.ok r, 1, [])
  | .error errorMsg =>
    match findMissingFile errorMsg.data with
    | some filePath =>
      match env.accessResult with
      | .error e =>
        (.error ("File Access Denied: " ++ e), 1, [.requestFileAccess filePath])
      | .ok _buffer =>
        match env.registerResult with
        | .error e =>
          (.error ("File Access Denied: " ++ e), 1, [.requestFileAccess filePath])
        | .ok _ =>
          match env.engine 1 with
          | .ok r => (.ok r, 2, [.requestFileAccess filePath])
          | .error e2 =>
            (.error ("File Access Denied: " ++ e2), 2,
              [.requestFileAccess filePath])
    | none => (.error errorMsg, 1, [])

/-- `updateCell(id, updates)`: map over the cell list, merging the
updates into every cell whose id matches. -/
def setCell (cells : List Cell) (id : String) (f : Cell → Cell) : List Cell :=
  cells.map (fun c => if c.id = id then f c else c)

/-- The messages emitted by the COPY export block after a successful
query: nothing when the regex does not match or `copyFileToBuffer`
throws (the block's failures are only logged), otherwise the full
start/chunks/end sequence. -/
def exportMsgs (env : RunEnv) : List HostMsg :=
  match env.copyDetect with
  | none => []
  | some name =>
    match env.copyFileResult with
    | .ok buffer => sendCopyExport name buffer
    | .error _ => []

/-- The observable outcome of one `runCell` call: the new cell list, the
number of `conn.query` calls made, and the messages posted to the host. -/
structure RunOutcome where
  cells : List Cell
  queriesSent : Nat
  messages : List HostMsg
  deriving DecidableEq

/-- `runCell(id)` from the webview application, step for step:
guard (cell exists and `dbReady`); optimistic update to Running with the
prior error cleared; inside the try: connection check, blank-query check
(back to Idle), `executeQuery`, success update (rows, columns,
columnTypes, executionTime), then the best-effort COPY export block whose
failures are swallowed; the outer catch records the thrown message as the
cell's error. -/
def runCell (cells : List Cell) (dbReady : Bool) (id : String) (env : RunEnv) :
    RunOutcome :=
  match cells.find? (fun c => c.id == id) with
  | none => ⟨cells, 0, []⟩
  | some cell =>
    if ¬ dbReady then ⟨cells, 0, []⟩
    else
      let cells1 := setCell cells id
        (fun c => { c with status := .running, error := none })
      if ¬ env.connPresent then
        ⟨setCell cells1 id
          (fun c => { c with status := .error,
                             error := some "Database not connected" }), 0, []⟩
      else if isBlankQuery cell.query then
        ⟨setCell cells1 id (fun c => { c with status := .idle }), 0, []⟩
      else
        match executeQuery env with
        | (.error msg, q, msgs) =>
          ⟨setCell cells1 id
            (fun c => { c with status := .error, error := some msg }), q, msgs⟩
        | (.ok r, q, msgs) =>
          ⟨setCell cells1 id
            (fun c => { c with status := .success,
                               rows := some r.rows,
                               columns := some (r.fields.map Field.name),
                               columnTypes := some (r.fields.map Field.type),
                               executionTime := some env.elapsed }),
            q, msgs ++ exportMsgs env⟩

/-- Environment whose engine always fails and whose hooks are never
consulted on the guarded paths. -/
def idleEnv : RunEnv :=
  { connPresent := true
    engine := fun _ => Except.error "unused"
    accessResult := Except.error "unused"
    registerResult := Except.ok ()
    elapsed := 0
    copyDetect := none
    copyFileResult := Except.error "unused" }

/-- Environment for the blank-query runs; nothing in it is consulted. -/
def blankEnv : RunEnv :=
  { connPresent := true
    engine := fun _ => Except.error "unused"
    accessResult := Except.error "unused"
    registerResult := Except.ok ()
    elapsed := 0
    copyDetect := none
    copyFileResult := Except.error "unused" }

/-- A cell with a whitespace-only query and a recorded prior error. -/
def blankCell : Cell :=
  { id := "c1", query := "  ", status := Status.error,
    error := some "previous failure" }

/-- A cell whose query triggers the missing-file recovery path. -/
def retryCell : Cell :=
  { id := "c1", query := "SELECT 1", status := Status.idle }

/-- The engine error message carrying the missing-file signature. -/
def missingMsg : String :=
  "IO Error: No files found that match the pattern \"/tmp/a.csv\""

/-- Environment in which the first engine call raises the missing-file
signature, access is granted, registration succeeds, and the single
retry fails with "boom". -/
def retryEnv : RunEnv :=
  { connPresent := true
    engine := fun k => if k = 0 then Except.error missingMsg
                       else Except.error "boom"
    accessResult := Except.ok [1, 2, 3]
    registerResult := Except.ok ()
    elapsed := 0
    copyDetect := none
    copyFileResult := Except.error "unused" }

/-- A cell whose run succeeds and whose export attempt fails. -/
def exportCell5 : Cell :=
  { id := "c1", query := "COPY data TO out.parquet", status := Status.idle }

/-- Environment in which the query succeeds but the export read-back of
the artifact fails. -/
def exportFailEnv : RunEnv :=
  { connPresent := true
    engine := fun _ => Except.ok { rows := [[("a", "1")]],
                                   fields := [{ name := "a", type := "Int32" }] }
    accessResult := Except.error "unused"
    registerResult := Except.ok ()
    elapsed := 7
    copyDetect := some "out.parquet"
    copyFileResult := Except.error "copyFileToBuffer failed" }

/-- Recognizer for `saveFileStart` messages. -/
def isStartMsg : HostMsg → Bool
  | .saveFileStart _ => true
  | _ => false

/-- Recognizer for `saveFileChunk` messages. -/
def isChunkMsg : HostMsg → Bool
  | .saveFileChunk _ _ => true
  | _ => false

/-- Recognizer for `saveFileEnd` messages. -/
def isEndMsg : HostMsg → Bool
  | .saveFileEnd _ => true
  | _ => false

/-- A cell whose successful run carries a COPY statement. -/
def copyCell9 : Cell :=
  { id := "c1", query := "COPY data TO out.csv", status := Status.idle }

/-- The engine result for the COPY run. -/
def copyResult9 : QueryResult :=
  { rows := [], fields := [{ name := "Count", type := "Int64" }] }

/-- Environment in which the query succeeds, the COPY target is
detected, and the artifact read back is the 3-byte buffer [5, 6, 7]. -/
def copyEnv9 : RunEnv :=
  { connPresent := true
    engine := fun _ => Except.ok copyResult9
    accessResult := Except.error "unused"
    registerResult := Except.ok ()
    elapsed := 3
    copyDetect := some "out.csv"
    copyFileResult := Except.ok [5, 6, 7] }

/-- The three outcomes of the host's warning prompt for an external file
read. -/
inductive UserChoice where
  | allow
  | allowAndRemember
  | deny
  deriving DecidableEq

/-- The host's reply to a `requestFileAccess` message. -/
inductive BrokerResponse where
  | granted (filePath : String) (data : Buffer)
  | denied (filePath : String) (error : String)
  deriving DecidableEq

/-- Whether a reply is a grant. -/
def BrokerResponse.isGranted : BrokerResponse → Bool
  | .granted _ _ => true
  | .denied _ _ => false

/-- Observable outcome of one `requestFileAccess` handling on the host:
the reply posted to the webview, whether the user was prompted, and the
value of the persisted `allowExternalFileAccess` setting afterwards. -/
structure HostAccessOutcome where
  response : BrokerResponse
  prompted : Bool
  newSetting : Bool
  deriving DecidableEq

/-- The `requestFileAccess` handler in the extension host. `setting` is
the persisted `duckdb.allowExternalFileAccess` boolean read at the start
of the request; `choice` is the user's selection if prompted;
`readResult` is the outcome of `vscode.workspace.fs.readFile` on the
requested path. If the setting is on, the file is read and granted with
no prompt (a read failure falls to the catch, which replies with a
denial carrying the error text). Otherwise the user is prompted: Allow
grants once; Allow and Remember persists the setting (before the read,
so it sticks even if the read then fails) and grants; Deny replies with
the explicit "User denied access" reason. -/
def handleRequestFileAccess (setting : Bool) (choice : UserChoice)
    (readResult : Except String Buffer) (filePath : String) :
    HostAccessOutcome :=
  if setting then
    match readResult with
    | .ok data => ⟨.granted filePath data, false, setting⟩
    | .error e => ⟨.denied filePath e, false, setting⟩
  else
    match choice with
    | .allow =>
      match readResult with
      | .ok data => ⟨.granted filePath data, true, setting⟩
      | .error e => ⟨.denied filePath e, true, setting⟩
    | .allowAndRemember =>
      match readResult with
      | .ok data => ⟨.granted filePath data, true, true⟩
      | .error e => ⟨.denied filePath e, true, true⟩
    | .deny => ⟨.denied filePath "User denied access", true, setting⟩

/-- How the webview's `fileAccessGranted` / `fileAccessDenied` handlers
settle the pending `requestFileAccess` promise (when its entry is still
registered): resolve with the data, or reject with `new Error(error)`
whose message is the carried text. -/
def accessResultOf : BrokerResponse → Except String Buffer
  | .granted _ d => .ok d
  | .denied _ e => .error e

/-- The reply determined by a read outcome on a no-prompt or allowed
path: granted with the bytes, or denied with the read error text. -/
def readOutcomeResponse (fp : String) : Except String Buffer → BrokerResponse
  | .ok d => .granted fp d
  | .error e => .denied fp e

/-- A cell whose query triggers the missing-file recovery path that the
user denies. -/
def denyCell : Cell :=
  { id := "c1", query := "SELECT 2", status := Status.idle }

/-- Environment in which the first engine call raises the missing-file
signature and the broker reply is the Deny outcome. -/
def denyEnv : RunEnv :=
  { connPresent := true
    engine := fun _ => Except.error missingMsg
    accessResult := Except.error "User denied access"
    registerResult := Except.ok ()
    elapsed := 0
    copyDetect := none
    copyFileResult := Except.error "unused" }

/-- Events affecting the webview's `pendingRequests` map:
`requestFileAccess` registrations (with the fresh promise handle they
store) and the host's `fileAccessGranted` / `fileAccessDenied`
replies. -/
inductive BrokerEvent where
  | request (filePath : String) (handle : Nat)
  | granted (filePath : String) (data : Buffer)
  | denied (filePath : String) (error : String)
  deriving DecidableEq

/-- How a pending promise handle was settled. -/
inductive Resolution where
  | resolved (data : Buffer)
  | rejected (error : String)
  deriving DecidableEq

/-- The webview broker state: the `pendingRequests` map from file path
to the stored promise handle, and the ordered log of handle
settlements. -/
structure BrokerState where
  pending : List (String × Nat)
  log : List (Nat × Resolution)
  deriving DecidableEq

/-- The initial state: an empty map. -/
def initBrokerState : BrokerState := ⟨[], []⟩

/-- JS `Map.set`: overwrite the existing entry for the key in place, or
append a new entry. -/
def mapSet : List (String × Nat) → String → Nat → List (String × Nat)
  | [], k, v => [(k, v)]
  | (k2, v2) :: rest, k, v =>
    if k2 = k then (k, v) :: rest else (k2, v2) :: mapSet rest k v

/-- JS `Map.get`. -/
def mapGet : List (String × Nat) → String → Option Nat
  | [], _ => none
  | (k2, v2) :: rest, k => if k2 = k then some v2 else mapGet rest k

/-- JS `Map.delete`. -/
def mapDelete : List (String × Nat) → String → List (String × Nat)
  | [], _ => []
  | (k2, v2) :: rest, k => if k2 = k then rest else (k2, v2) :: mapDelete rest k

/-- One event's effect on the map: `requestFileAccess` stores the new
handle under the path (overwriting any previous one);
`fileAccessGranted` / `fileAccessDenied` settle and remove the handle
currently stored for the path, and do nothing when none is stored. -/
def brokerStep (s : BrokerState) : BrokerEvent → BrokerState
  | .request p h => ⟨mapSet s.pending p h, s.log⟩
  | .granted p d =>
    match mapGet s.pending p with
    | some h => ⟨mapDelete s.pending p, s.log ++ [(h, .resolved d)]⟩
    | none => s
  | .denied p e =>
    match mapGet s.pending p with
    | some h => ⟨mapDelete s.pending p, s.log ++ [(h, .rejected e)]⟩
    | none => s

/-- Folding a delivered event sequence over the state. -/
def brokerRun (s : BrokerState) (evs : List BrokerEvent) : BrokerState :=
  evs.foldl brokerStep s

/-- Whether an event registers the given promise handle. -/
def usesHandle (h : Nat) : BrokerEvent → Bool
  | .request _ h2 => h2 == h
  | _ => false

lemma chunkSize_eq : CHUNK_SIZE = 1048576 := rfl

lemma chunkSize_pos : 0 < CHUNK_SIZE := by decide

/-- The first chunk is the first `CHUNK_SIZE` bytes. -/
lemma chunkAt_zero (buf : Buffer) : chunkAt buf 0 = buf.take CHUNK_SIZE := by
  unfold chunkAt slice
  simp only [Nat.zero_mul, Nat.zero_add, List.drop_zero, Nat.sub_zero]
  rcases le_total CHUNK_SIZE buf.length with h | h
  · rw [min_eq_left h]
  · rw [min_eq_right h, List.take_of_length_le h, List.take_length]

/-- Later chunks of `buf` are earlier chunks of `buf.drop CHUNK_SIZE`. -/
lemma chunkAt_succ (buf : Buffer) (i : Nat) :
    chunkAt buf (i + 1) = chunkAt (buf.drop CHUNK_SIZE) i := by
  unfold chunkAt slice
  rw [List.drop_drop, List.length_drop]
  have h1 : i * CHUNK_SIZE + CHUNK_SIZE = (i + 1) * CHUNK_SIZE := by ring
  rw [h1]
  have h2 : min ((i + 1) * CHUNK_SIZE + CHUNK_SIZE) buf.length - (i + 1) * CHUNK_SIZE
      = min ((i + 1) * CHUNK_SIZE) (buf.length - CHUNK_SIZE) - i * CHUNK_SIZE := by
    have hc : CHUNK_SIZE = 1048576 := rfl
    rw [hc]; omega
  rw [h2]
  have h3 : CHUNK_SIZE + i * CHUNK_SIZE = (i + 1) * CHUNK_SIZE := by ring
  rw [h3]

/-- One fewer chunk is needed after dropping the first `CHUNK_SIZE` bytes of
a nonempty buffer. -/
lemma numChunks_succ (S : Nat) (hS : 0 < S) :
    numChunks S = numChunks (S - CHUNK_SIZE) + 1 := by
  unfold numChunks
  have hc : CHUNK_SIZE = 1048576 := rfl
  rw [hc]
  omega

/-- Concatenating the chunks in loop order recovers the original buffer. -/
theorem chunksFrom_join (buf : Buffer) : (chunksFrom buf).flatten = buf := by
  rcases Nat.eq_zero_or_pos buf.length with hS | hS
  · have hb : buf = [] := List.eq_nil_of_length_eq_zero hS
    subst hb
    rfl
  · have hrec := chunksFrom_join (buf.drop CHUNK_SIZE)
    unfold chunksFrom at hrec ⊢
    rw [numChunks_succ buf.length hS, List.range_succ_eq_map, List.map_cons,
      List.map_map]
    have hmap : (List.range (numChunks (buf.length - CHUNK_SIZE))).map
        (chunkAt buf ∘ Nat.succ) =
        (List.range (numChunks (buf.length - CHUNK_SIZE))).map
        (chunkAt (buf.drop CHUNK_SIZE)) := by
      apply List.map_congr_left
      intro i _
      simp only [Function.comp]
      exact chunkAt_succ buf i
    rw [hmap, chunkAt_zero, List.flatten_cons]
    rw [List.length_drop] at hrec
    rw [hrec]
    exact List.take_append_drop CHUNK_SIZE buf
termination_by buf.length
decreasing_by
  simp only [List.length_drop]
  have hc : CHUNK_SIZE = 1048576 := rfl
  omega

/-- There are exactly `numChunks buf.length` chunks. -/
lemma chunksFrom_length (buf : Buffer) :
    (chunksFrom buf).length = numChunks buf.length := by
  simp [chunksFrom]

/-- The loop chunk count is the ceiling of `S / CHUNK_SIZE`:
it is the least count whose total capacity covers `S`. -/
lemma numChunks_spec (S : Nat) (hS : 0 < S) :
    (numChunks S - 1) * CHUNK_SIZE < S ∧ S ≤ numChunks S * CHUNK_SIZE := by
  unfold numChunks
  have hc : CHUNK_SIZE = 1048576 := rfl
  rw [hc]
  omega

/-- No chunk produced by the loop exceeds `CHUNK_SIZE` bytes. -/
lemma chunk_length_le (buf : Buffer) (c : Buffer) (hc : c ∈ chunksFrom buf) :
    c.length ≤ CHUNK_SIZE := by
  rcases List.mem_map.mp hc with ⟨i, _, rfl⟩
  unfold chunkAt slice
  rw [List.length_take, List.length_drop]
  have hcs : CHUNK_SIZE = 1048576 := rfl
  rw [hcs]
  omega

/-- The exact byte length of chunk `i`. -/
lemma chunkAt_length (buf : Buffer) (i : Nat) (h : i < numChunks buf.length) :
    (chunkAt buf i).length = min CHUNK_SIZE (buf.length - i * CHUNK_SIZE) := by
  unfold chunkAt slice
  rw [List.length_take, List.length_drop]
  have hiS : i * CHUNK_SIZE < buf.length := by
    unfold numChunks at h
    have hcs : CHUNK_SIZE = 1048576 := rfl
    rw [hcs] at h ⊢
    omega
  have hcs : CHUNK_SIZE = 1048576 := rfl
  rw [hcs] at hiS ⊢
  omega

/-- The byte lengths of the emitted chunks, as a function of the buffer
size alone. -/
lemma chunksFrom_lengths (buf : Buffer) :
    (chunksFrom buf).map List.length =
      (List.range (numChunks buf.length)).map
        (fun i => min CHUNK_SIZE (buf.length - i * CHUNK_SIZE)) := by
  unfold chunksFrom
  rw [List.map_map]
  apply List.map_congr_left
  intro i hi
  simp only [Function.comp]
  exact chunkAt_length buf i (List.mem_range.mp hi)

lemma applyWrites_appendOps (name : String) (chunks : List Buffer) (acc : Buffer) :
    applyWrites acc (chunks.map (WriteOp.append name)) = acc ++ chunks.flatten := by
  induction chunks generalizing acc with
  | nil => simp [applyWrites]
  | cons c cs ih =>
    simp only [List.map_cons, applyWrites, List.foldl_cons, applyWrite]
    rw [show List.foldl applyWrite (acc ++ c) (cs.map (WriteOp.append name))
        = applyWrites (acc ++ c) (cs.map (WriteOp.append name)) from rfl, ih]
    simp [List.append_assoc]

/-- C1: for every exported buffer (of any size S, hence any chunk count),
splitting it into the loop's chunks of at most 1 MiB and having the host
execute, in arrival order, the truncate operation followed by one append
per chunk (and the finalize), starting from any prior destination
contents, yields a destination file whose bytes equal the original buffer
and whose final length equals S. -/
theorem c1_chunk_sum (name : String) (buf : Buffer) (file0 : Buffer) :
    (∀ c ∈ chunksFrom buf, c.length ≤ CHUNK_SIZE) ∧
    applyWrites file0 (processQueue (sendCopyExport name buf)) = buf ∧
    (applyWrites file0 (processQueue (sendCopyExport name buf))).length
      = buf.length := by
  have hchunkMap : ∀ l : List Buffer,
      List.filterMap (enqueueOp ∘ HostMsg.saveFileChunk name) l
        = l.map (WriteOp.append name) := by
    intro l
    induction l with
    | nil => rfl
    | cons c cs ih => simp [enqueueOp, Function.comp, ih]
  have hops : processQueue (sendCopyExport name buf) =
      WriteOp.truncate name ::
        ((chunksFrom buf).map (WriteOp.append name) ++ [WriteOp.finalize name]) := by
    unfold processQueue sendCopyExport
    rw [List.filterMap_cons, List.filterMap_append, List.filterMap_map, hchunkMap]
    rfl
  have hmain : applyWrites file0 (processQueue (sendCopyExport name buf)) = buf := by
    rw [hops]
    unfold applyWrites
    rw [List.foldl_cons]
    rw [show applyWrite file0 (WriteOp.truncate name) = [] from rfl]
    rw [List.foldl_append]
    rw [show List.foldl applyWrite [] ((chunksFrom buf).map (WriteOp.append name))
        = applyWrites [] ((chunksFrom buf).map (WriteOp.append name)) from rfl]
    rw [applyWrites_appendOps]
    simp [applyWrite, chunksFrom_join]
  exact ⟨fun c hc => chunk_length_le buf c hc, hmain, by rw [hmain]⟩

/-- Enqueueing preserves per-name projections: the operations the queue
executes for a name are exactly the operations of that name's delivered
messages, in delivery order. -/
lemma filter_processQueue (n : String) (msgs : List HostMsg) :
    (processQueue msgs).filter (opFor n)
      = processQueue (msgs.filter (saveMsgFor n)) := by
  unfold processQueue
  induction msgs with
  | nil => rfl
  | cons m ms ih =>
    cases m with
    | saveFileStart m1 =>
      by_cases hm : m1 = n <;>
        simp [enqueueOp, saveMsgFor, opFor, hm, ih]
    | saveFileChunk m1 d =>
      by_cases hm : m1 = n <;>
        simp [enqueueOp, saveMsgFor, opFor, hm, ih]
    | saveFileEnd m1 =>
      by_cases hm : m1 = n <;>
        simp [enqueueOp, saveMsgFor, opFor, hm, ih]
    | requestFileAccess p =>
      simp [enqueueOp, saveMsgFor, ih]

/-- C3: for every destination name and every delivered message sequence
(in particular, every interleaving of concurrent exports) whose per-name
projection is one well-formed export — `saveFileStart`, then the chunks,
then `saveFileEnd` — the operations the host's single FIFO write queue
executes for that name are the truncate, then the chunk appends in the
same order, then the finalize: no chunk write is observed before the
start operation, and the end operation is observed after all chunk
writes. -/
theorem c3_fifo_per_name_order (n : String) (msgs : List HostMsg)
    (ds : List Buffer)
    (h : msgs.filter (saveMsgFor n) =
      HostMsg.saveFileStart n ::
        (ds.map (HostMsg.saveFileChunk n) ++ [HostMsg.saveFileEnd n])) :
    (processQueue msgs).filter (opFor n) =
      WriteOp.truncate n ::
        (ds.map (WriteOp.append n) ++ [WriteOp.finalize n]) := by
  rw [filter_processQueue, h]
  unfold processQueue
  rw [List.filterMap_cons, List.filterMap_append, List.filterMap_map]
  have hchunkMap : ∀ l : List Buffer,
      List.filterMap (enqueueOp ∘ HostMsg.saveFileChunk n) l
        = l.map (WriteOp.append n) := by
    intro l
    induction l with
    | nil => rfl
    | cons c cs ih => simp [enqueueOp, Function.comp, ih]
  rw [hchunkMap]
  rfl

/-- C3 witness: two concurrent exports, names "a" and "b", interleaved on
the wire; the queue still executes start-before-chunk-before-end for "a". -/
theorem c3_fifo_per_name_order_witness :
    (processQueue
        [HostMsg.saveFileStart "a", HostMsg.saveFileStart "b",
         HostMsg.saveFileChunk "a" [1], HostMsg.saveFileChunk "b" [2, 2],
         HostMsg.saveFileEnd "b", HostMsg.saveFileEnd "a"]).filter (opFor "a") =
      WriteOp.truncate "a" ::
        ([[1]].map (WriteOp.append "a") ++ [WriteOp.finalize "a"]) :=
  c3_fifo_per_name_order "a"
    [HostMsg.saveFileStart "a", HostMsg.saveFileStart "b",
     HostMsg.saveFileChunk "a" [1], HostMsg.saveFileChunk "b" [2, 2],
     HostMsg.saveFileEnd "b", HostMsg.saveFileEnd "a"]
    [[1]] (by decide)

/-- Updating twice under the same id collapses to one update when the
first update does not change the id. -/
lemma setCell_setCell (cells : List Cell) (id : String) (f g : Cell → Cell)
    (hf : ∀ c, (f c).id = c.id) :
    setCell (setCell cells id f) id g = setCell cells id (fun c => g (f c)) := by
  unfold setCell
  rw [List.map_map]
  apply List.map_congr_left
  intro c _
  by_cases h : c.id = id
  · simp [Function.comp, h, hf]
  · simp [Function.comp, h]

/-- C10: when the cell id names no existing cell, or the session is not
ready (`dbReady` false), `runCell` returns without touching any cell,
without calling the engine, and without posting any message. -/
theorem c10_guard_no_op (cells : List Cell) (dbReady : Bool) (id : String)
    (env : RunEnv)
    (h : cells.find? (fun c => c.id == id) = none ∨ dbReady = false) :
    runCell cells dbReady id env = ⟨cells, 0, []⟩ := by
  unfold runCell
  rcases h with h | h
  · rw [h]
  · cases hf : cells.find? (fun c => c.id == id) with
    | none => rfl
    | some cell => simp [h]

/-- C10 witness: a run on a not-ready session leaves everything as is. -/
theorem c10_guard_no_op_witness :
    runCell [{ id := "c1", query := "SELECT 1", status := Status.idle }]
        false "c1" idleEnv
      = ⟨[{ id := "c1", query := "SELECT 1", status := Status.idle }], 0, []⟩ :=
  c10_guard_no_op
    [{ id := "c1", query := "SELECT 1", status := Status.idle }]
    false "c1" idleEnv (Or.inr rfl)

/-- C6 (amended): a run on a blank query transitions the cell to Idle
and clears the prior error text (the optimistic Running update already
cleared it before the blank-query check); no query is sent to the
engine, no message is posted, and rows, columns, columnTypes and
executionTime are unchanged. -/
theorem c6_blank_idle (cells : List Cell) (id : String) (env : RunEnv)
    (cell : Cell)
    (hfind : cells.find? (fun c => c.id == id) = some cell)
    (hconn : env.connPresent = true)
    (hblank : isBlankQuery cell.query = true) :
    (runCell cells true id env).cells
      = setCell cells id
          (fun c => { c with status := Status.idle, error := none }) ∧
    (runCell cells true id env).queriesSent = 0 ∧
    (runCell cells true id env).messages = [] := by
  have hrun : runCell cells true id env =
      ⟨setCell
          (setCell cells id
            (fun c => { c with status := Status.running, error := none }))
          id (fun c => { c with status := Status.idle }), 0, []⟩ := by
    unfold runCell
    rw [hfind]
    simp [hconn, hblank]
  rw [hrun, setCell_setCell]
  · exact ⟨rfl, rfl, rfl⟩
  · intro c
    rfl

/-- C6 counterexample: the claim says every field other than the status
— including any prior error text — is left unchanged, but `runCell`
clears the prior error: on a cell whose error was
`some "previous failure"`, the final state has `error = none`, not the
claimed state that differs from the original only in `status`. -/
theorem c6_counterexample :
    (runCell [blankCell] true "c1" blankEnv).cells
        = [{ blankCell with status := Status.idle, error := none }] ∧
    (runCell [blankCell] true "c1" blankEnv).cells
        ≠ [{ blankCell with status := Status.idle }] := by
  exact ⟨by decide, by decide⟩

/-- C6 witness: the amended statement at the concrete blank-query cell. -/
theorem c6_blank_idle_witness :
    (runCell [blankCell] true "c1" blankEnv).cells
      = setCell [blankCell] "c1"
          (fun c => { c with status := Status.idle, error := none }) ∧
    (runCell [blankCell] true "c1" blankEnv).queriesSent = 0 ∧
    (runCell [blankCell] true "c1" blankEnv).messages = [] :=
  c6_blank_idle [blankCell] "c1" blankEnv blankCell (by decide) rfl (by decide)

/-- C2 (amended): when the first engine call fails with the missing-file
signature, access is granted and the bytes are registered, the query is
retried exactly once (two engine calls in total); if the retry also
fails, the cell ends in a terminal Error whose user-facing detail is the
engine's retry failure message prefixed with "File Access Denied: ", and
no further retry is attempted. -/
theorem c2_retry_once (cells : List Cell) (id : String) (env : RunEnv)
    (cell : Cell) (msg p msg2 : String) (buf : Buffer)
    (hfind : cells.find? (fun c => c.id == id) = some cell)
    (hconn : env.connPresent = true)
    (hblank : isBlankQuery cell.query = false)
    (heng : env.engine 0 = Except.error msg)
    (hmatch : findMissingFile msg.data = some p)
    (hacc : env.accessResult = Except.ok buf)
    (hreg : env.registerResult = Except.ok ())
    (heng2 : env.engine 1 = Except.error msg2) :
    (runCell cells true id env).queriesSent = 2 ∧
    (runCell cells true id env).cells
      = setCell cells id (fun c =>
          { c with status := Status.error,
                   error := some ("File Access Denied: " ++ msg2) }) ∧
    (runCell cells true id env).messages = [HostMsg.requestFileAccess p] := by
  have hexec : executeQuery env =
      (Except.error ("File Access Denied: " ++ msg2), 2,
        [HostMsg.requestFileAccess p]) := by
    simp [executeQuery, heng, hmatch, hacc, hreg, heng2]
  have hrun : runCell cells true id env =
      ⟨setCell
          (setCell cells id
            (fun c => { c with status := Status.running, error := none }))
          id (fun c => { c with status := Status.error,
                                error := some ("File Access Denied: " ++ msg2) }),
        2, [HostMsg.requestFileAccess p]⟩ := by
    unfold runCell
    rw [hfind]
    simp [hconn, hblank, hexec]
  rw [hrun, setCell_setCell]
  · exact ⟨rfl, rfl, rfl⟩
  · intro c
    rfl

/-- C2 counterexample: the claim says the terminal Error's user-facing
detail is the engine's message; on a retry failing with "boom", the
recorded detail is "File Access Denied: boom", not "boom". -/
theorem c2_counterexample :
    (runCell [retryCell] true "c1" retryEnv).cells.map Cell.error
        = [some ("File Access Denied: " ++ "boom")] ∧
    (runCell [retryCell] true "c1" retryEnv).cells.map Cell.error
        ≠ [some "boom"] ∧
    (runCell [retryCell] true "c1" retryEnv).queriesSent = 2 := by
  exact ⟨by decide, by decide, by decide⟩

/-- C2 witness: the amended statement at the concrete retry scenario. -/
theorem c2_retry_once_witness :
    (runCell [retryCell] true "c1" retryEnv).queriesSent = 2 ∧
    (runCell [retryCell] true "c1" retryEnv).cells
      = setCell [retryCell] "c1" (fun c =>
          { c with status := Status.error,
                   error := some ("File Access Denied: " ++ "boom") }) ∧
    (runCell [retryCell] true "c1" retryEnv).messages
      = [HostMsg.requestFileAccess "/tmp/a.csv"] :=
  c2_retry_once [retryCell] "c1" retryEnv retryCell missingMsg "/tmp/a.csv"
    "boom" [1, 2, 3] (by decide) rfl (by decide) rfl (by decide) rfl rfl rfl

/-- C5: once a run's query has succeeded, the final cell list after the
whole run — including the best-effort COPY export attempt — is exactly
the Success update (status, rows, columns, columnTypes, executionTime
from the engine result, error cleared), for every outcome of the export
side effect (copy detection, artifact read-back, chunk sends): no export
failure ever changes the recorded Success. -/
theorem c5_export_never_downgrades (cells : List Cell) (id : String)
    (env : RunEnv) (cell : Cell) (r : QueryResult) (q : Nat)
    (msgs : List HostMsg)
    (hfind : cells.find? (fun c => c.id == id) = some cell)
    (hconn : env.connPresent = true)
    (hblank : isBlankQuery cell.query = false)
    (hexec : executeQuery env = (Except.ok r, q, msgs)) :
    (runCell cells true id env).cells
      = setCell cells id (fun c =>
          { c with status := Status.success,
                   error := none,
                   rows := some r.rows,
                   columns := some (r.fields.map Field.name),
                   columnTypes := some (r.fields.map Field.type),
                   executionTime := some env.elapsed }) := by
  have hrun : runCell cells true id env =
      ⟨setCell
          (setCell cells id
            (fun c => { c with status := Status.running, error := none }))
          id (fun c => { c with status := Status.success,
                                rows := some r.rows,
                                columns := some (r.fields.map Field.name),
                                columnTypes := some (r.fields.map Field.type),
                                executionTime := some env.elapsed }),
        q, msgs ++ exportMsgs env⟩ := by
    unfold runCell
    rw [hfind]
    simp [hconn, hblank, hexec]
  rw [hrun, setCell_setCell]
  intro c
  rfl

/-- C5 witness: the concrete failing export leaves the Success state. -/
theorem c5_export_never_downgrades_witness :
    (runCell [exportCell5] true "c1" exportFailEnv).cells
      = setCell [exportCell5] "c1" (fun c =>
          { c with status := Status.success,
                   error := none,
                   rows := some [[("a", "1")]],
                   columns := some ["a"],
                   columnTypes := some ["Int32"],
                   executionTime := some 7 }) :=
  c5_export_never_downgrades [exportCell5] "c1" exportFailEnv exportCell5
    { rows := [[("a", "1")]], fields := [{ name := "a", type := "Int32" }] }
    1 [] (by decide) rfl (by decide) rfl

lemma filter_chunk_map (name : String) (l : List Buffer) :
    (l.map (HostMsg.saveFileChunk name)).filter isChunkMsg
      = l.map (HostMsg.saveFileChunk name) := by
  induction l with
  | nil => rfl
  | cons c cs ih => simp [isChunkMsg, ih]

lemma filter_start_chunks (name : String) (l : List Buffer) :
    (l.map (HostMsg.saveFileChunk name)).filter isStartMsg = [] := by
  induction l with
  | nil => rfl
  | cons c cs ih => simp [isStartMsg, ih]

lemma filter_end_chunks (name : String) (l : List Buffer) :
    (l.map (HostMsg.saveFileChunk name)).filter isEndMsg = [] := by
  induction l with
  | nil => rfl
  | cons c cs ih => simp [isEndMsg, ih]

/-- C9: for a successful query whose COPY target was detected and whose
artifact bytes (of size S > 0) were read back, the sender emits exactly
the start/chunks/end sequence, where the chunk count is the ceiling of
S / 1 MiB (characterized as the least count covering S), every chunk
except possibly the last carries exactly 1 MiB, the chunks concatenate
to the original buffer in order, and the sequence is bounded by exactly
one `saveFileStart` (first) and one `saveFileEnd` (last); in particular
a 3 MiB artifact yields exactly 3 chunks of 1 MiB each. -/
theorem c9_chunk_emission (cells : List Cell) (id : String) (env : RunEnv)
    (cell : Cell) (r : QueryResult) (name : String) (buf : Buffer)
    (hfind : cells.find? (fun c => c.id == id) = some cell)
    (hconn : env.connPresent = true)
    (hblank : isBlankQuery cell.query = false)
    (heng : env.engine 0 = Except.ok r)
    (hcopy : env.copyDetect = some name)
    (hfile : env.copyFileResult = Except.ok buf)
    (hS : 0 < buf.length) :
    (runCell cells true id env).messages = sendCopyExport name buf ∧
    ((sendCopyExport name buf).filter isChunkMsg).length
      = numChunks buf.length ∧
    (numChunks buf.length - 1) * CHUNK_SIZE < buf.length ∧
    buf.length ≤ numChunks buf.length * CHUNK_SIZE ∧
    (chunksFrom buf).map List.length
      = (List.range (numChunks buf.length)).map
          (fun i => min CHUNK_SIZE (buf.length - i * CHUNK_SIZE)) ∧
    (∀ i, i + 1 < numChunks buf.length →
      min CHUNK_SIZE (buf.length - i * CHUNK_SIZE) = CHUNK_SIZE) ∧
    (chunksFrom buf).flatten = buf ∧
    (sendCopyExport name buf).head? = some (HostMsg.saveFileStart name) ∧
    (sendCopyExport name buf).getLast? = some (HostMsg.saveFileEnd name) ∧
    ((sendCopyExport name buf).filter isStartMsg).length = 1 ∧
    ((sendCopyExport name buf).filter isEndMsg).length = 1 ∧
    (buf.length = 3 * CHUNK_SIZE →
      (chunksFrom buf).map List.length = [CHUNK_SIZE, CHUNK_SIZE, CHUNK_SIZE]) := by
  have hexec : executeQuery env = (Except.ok r, 1, []) := by
    simp [executeQuery, heng]
  have hmsgs : (runCell cells true id env).messages = sendCopyExport name buf := by
    unfold runCell
    rw [hfind]
    simp [hconn, hblank, hexec, exportMsgs, hcopy, hfile]
  have hcount : ((sendCopyExport name buf).filter isChunkMsg).length
      = numChunks buf.length := by
    unfold sendCopyExport
    rw [List.filter_cons, List.filter_append, filter_chunk_map]
    simp [isChunkMsg, isEndMsg, chunksFrom_length]
  have hceil := numChunks_spec buf.length hS
  have hfull : ∀ i, i + 1 < numChunks buf.length →
      min CHUNK_SIZE (buf.length - i * CHUNK_SIZE) = CHUNK_SIZE := by
    intro i hi
    unfold numChunks at hi
    rw [chunkSize_eq] at hi ⊢
    omega
  have hlast : (sendCopyExport name buf).getLast?
      = some (HostMsg.saveFileEnd name) := by
    unfold sendCopyExport
    rw [← List.cons_append, List.getLast?_concat]
  have hstart1 : ((sendCopyExport name buf).filter isStartMsg).length = 1 := by
    unfold sendCopyExport
    rw [List.filter_cons, List.filter_append, filter_start_chunks]
    simp [isStartMsg]
  have hend1 : ((sendCopyExport name buf).filter isEndMsg).length = 1 := by
    unfold sendCopyExport
    rw [List.filter_cons, List.filter_append, filter_end_chunks]
    simp [isEndMsg, isStartMsg]
  have h3mib : buf.length = 3 * CHUNK_SIZE →
      (chunksFrom buf).map List.length = [CHUNK_SIZE, CHUNK_SIZE, CHUNK_SIZE] := by
    intro h3
    rw [chunksFrom_lengths, h3]
    decide
  exact ⟨hmsgs, hcount, hceil.1, hceil.2, chunksFrom_lengths buf, hfull,
    chunksFrom_join buf, rfl, hlast, hstart1, hend1, h3mib⟩

/-- C9 witness: the emission at the concrete 3-byte artifact. -/
theorem c9_chunk_emission_witness :
    (runCell [copyCell9] true "c1" copyEnv9).messages
      = sendCopyExport "out.csv" [5, 6, 7] ∧
    ((sendCopyExport "out.csv" [5, 6, 7]).filter isChunkMsg).length
      = numChunks (List.length [5, 6, 7]) ∧
    (numChunks (List.length [5, 6, 7]) - 1) * CHUNK_SIZE
      < List.length [5, 6, 7] ∧
    List.length [5, 6, 7] ≤ numChunks (List.length [5, 6, 7]) * CHUNK_SIZE ∧
    (chunksFrom [5, 6, 7]).map List.length
      = (List.range (numChunks (List.length [5, 6, 7]))).map
          (fun i => min CHUNK_SIZE (List.length [5, 6, 7] - i * CHUNK_SIZE)) ∧
    (∀ i, i + 1 < numChunks (List.length [5, 6, 7]) →
      min CHUNK_SIZE (List.length [5, 6, 7] - i * CHUNK_SIZE) = CHUNK_SIZE) ∧
    (chunksFrom [5, 6, 7]).flatten = [5, 6, 7] ∧
    (sendCopyExport "out.csv" [5, 6, 7]).head?
      = some (HostMsg.saveFileStart "out.csv") ∧
    (sendCopyExport "out.csv" [5, 6, 7]).getLast?
      = some (HostMsg.saveFileEnd "out.csv") ∧
    ((sendCopyExport "out.csv" [5, 6, 7]).filter isStartMsg).length = 1 ∧
    ((sendCopyExport "out.csv" [5, 6, 7]).filter isEndMsg).length = 1 ∧
    (List.length [5, 6, 7] = 3 * CHUNK_SIZE →
      (chunksFrom [5, 6, 7]).map List.length
        = [CHUNK_SIZE, CHUNK_SIZE, CHUNK_SIZE]) :=
  c9_chunk_emission [copyCell9] "c1" copyEnv9 copyCell9 copyResult9
    "out.csv" [5, 6, 7] (by decide) rfl (by decide) rfl rfl rfl (by decide)

/-- C4: when the engine error matches the missing-file signature and the
user selects Deny, the cell ends in Error carrying the denial reason
("File Access Denied: User denied access") and the query is not retried
(exactly one engine call); and every host-side read failure on a granted
path (setting already on, or the user chose Allow / Allow and Remember)
is replied to as a denial carrying the underlying error text. -/
theorem c4_denial (cells : List Cell) (id : String) (env : RunEnv)
    (cell : Cell) (msg p : String) (rr : Except String Buffer)
    (setting2 : Bool) (choice2 : UserChoice) (fp2 e2 : String)
    (hfind : cells.find? (fun c => c.id == id) = some cell)
    (hconn : env.connPresent = true)
    (hblank : isBlankQuery cell.query = false)
    (heng : env.engine 0 = Except.error msg)
    (hmatch : findMissingFile msg.data = some p)
    (hacc : env.accessResult =
      accessResultOf
        (handleRequestFileAccess false UserChoice.deny rr p).response)
    (hgrant2 : setting2 = true ∨ choice2 ≠ UserChoice.deny) :
    (runCell cells true id env).queriesSent = 1 ∧
    (runCell cells true id env).cells
      = setCell cells id (fun c =>
          { c with status := Status.error,
                   error := some ("File Access Denied: " ++
                     "User denied access") }) ∧
    (runCell cells true id env).messages = [HostMsg.requestFileAccess p] ∧
    (handleRequestFileAccess setting2 choice2 (Except.error e2) fp2).response
      = BrokerResponse.denied fp2 e2 := by
  have hacc2 : env.accessResult = Except.error "User denied access" := by
    simpa [handleRequestFileAccess, accessResultOf] using hacc
  have hexec : executeQuery env =
      (Except.error ("File Access Denied: " ++ "User denied access"), 1,
        [HostMsg.requestFileAccess p]) := by
    simp [executeQuery, heng, hmatch, hacc2]
  have hrun : runCell cells true id env =
      ⟨setCell
          (setCell cells id
            (fun c => { c with status := Status.running, error := none }))
          id (fun c => { c with status := Status.error,
                                error := some ("File Access Denied: " ++
                                  "User denied access") }),
        1, [HostMsg.requestFileAccess p]⟩ := by
    unfold runCell
    rw [hfind]
    simp [hconn, hblank, hexec]
  have hread : (handleRequestFileAccess setting2 choice2
      (Except.error e2) fp2).response = BrokerResponse.denied fp2 e2 := by
    rcases hgrant2 with hs | hc
    · simp [handleRequestFileAccess, hs]
    · cases setting2
      · cases choice2 <;> simp_all [handleRequestFileAccess]
      · simp [handleRequestFileAccess]
  rw [hrun, setCell_setCell]
  · exact ⟨rfl, rfl, rfl, hread⟩
  · intro c
    rfl

/-- C4 witness: the concrete denied run and a concrete failing read. -/
theorem c4_denial_witness :
    (runCell [denyCell] true "c1" denyEnv).queriesSent = 1 ∧
    (runCell [denyCell] true "c1" denyEnv).cells
      = setCell [denyCell] "c1" (fun c =>
          { c with status := Status.error,
                   error := some ("File Access Denied: " ++
                     "User denied access") }) ∧
    (runCell [denyCell] true "c1" denyEnv).messages
      = [HostMsg.requestFileAccess "/tmp/a.csv"] ∧
    (handleRequestFileAccess false UserChoice.allow
        (Except.error "ENOENT: no such file") "/tmp/b.csv").response
      = BrokerResponse.denied "/tmp/b.csv" "ENOENT: no such file" :=
  c4_denial [denyCell] "c1" denyEnv denyCell missingMsg "/tmp/a.csv"
    (Except.ok []) false UserChoice.allow "/tmp/b.csv" "ENOENT: no such file"
    (by decide) rfl (by decide) rfl (by decide) rfl
    (Or.inr (by decide))

/-- C8 (amended): after "Allow and Remember" the persisted boolean is
set, and every subsequent request in the same session — including one
for a different absolute path — is handled without prompting the user,
with the reply determined solely by the host's file read: granted with
the bytes when it succeeds, denied with the read error when it fails.
The setting is global, with no per-path granularity. -/
theorem c8_remember_global (fp1 fp2 : String)
    (rr1 rr2 : Except String Buffer) (choice2 : UserChoice) :
    (handleRequestFileAccess false UserChoice.allowAndRemember rr1 fp1).newSetting
      = true ∧
    (handleRequestFileAccess
        (handleRequestFileAccess false UserChoice.allowAndRemember
          rr1 fp1).newSetting
        choice2 rr2 fp2).prompted = false ∧
    (handleRequestFileAccess
        (handleRequestFileAccess false UserChoice.allowAndRemember
          rr1 fp1).newSetting
        choice2 rr2 fp2).response = readOutcomeResponse fp2 rr2 := by
  cases rr1 <;> cases rr2 <;>
    simp [handleRequestFileAccess, readOutcomeResponse]

/-- C8 counterexample: the claim says every subsequent request is
granted; after "Allow and Remember", a second request (different path)
whose host-side read fails is answered with a denial, not a grant —
though indeed without prompting. -/
theorem c8_counterexample :
    (handleRequestFileAccess
        (handleRequestFileAccess false UserChoice.allowAndRemember
          (Except.ok [1]) "/tmp/a.csv").newSetting
        UserChoice.allow (Except.error "ENOENT: no such file")
        "/tmp/b.csv").response
      = BrokerResponse.denied "/tmp/b.csv" "ENOENT: no such file" ∧
    ((handleRequestFileAccess
        (handleRequestFileAccess false UserChoice.allowAndRemember
          (Except.ok [1]) "/tmp/a.csv").newSetting
        UserChoice.allow (Except.error "ENOENT: no such file")
        "/tmp/b.csv").response).isGranted = false ∧
    (handleRequestFileAccess
        (handleRequestFileAccess false UserChoice.allowAndRemember
          (Except.ok [1]) "/tmp/a.csv").newSetting
        UserChoice.allow (Except.error "ENOENT: no such file")
        "/tmp/b.csv").prompted = false := by
  exact ⟨by decide, by decide, by decide⟩

lemma mapSet_keys_sub (m : List (String × Nat)) (k : String) (v : Nat) :
    ∀ x ∈ (mapSet m k v).map Prod.fst, x = k ∨ x ∈ m.map Prod.fst := by
  induction m with
  | nil =>
    intro x hx
    simp [mapSet] at hx
    exact Or.inl hx
  | cons kv rest ih =>
    obtain ⟨k2, v2⟩ := kv
    intro x hx
    by_cases hk : k2 = k
    · simp [mapSet, hk] at hx
      rcases hx with hx | hx
      · exact Or.inl hx
      · exact Or.inr (by simp [hx])
    · simp [mapSet, hk] at hx
      rcases hx with hx | hx
      · exact Or.inr (by simp [hx])
      · rcases ih x (by simpa using hx) with h | h
        · exact Or.inl h
        · exact Or.inr (by simp [List.mem_map] at h ⊢; tauto)

lemma mapSet_values_sub (m : List (String × Nat)) (k : String) (v : Nat) :
    ∀ x ∈ (mapSet m k v).map Prod.snd, x = v ∨ x ∈ m.map Prod.snd := by
  induction m with
  | nil =>
    intro x hx
    simp [mapSet] at hx
    exact Or.inl hx
  | cons kv rest ih =>
    obtain ⟨k2, v2⟩ := kv
    intro x hx
    by_cases hk : k2 = k
    · simp [mapSet, hk] at hx
      rcases hx with hx | hx
      · exact Or.inl hx
      · exact Or.inr (by simp [hx])
    · simp [mapSet, hk] at hx
      rcases hx with hx | hx
      · exact Or.inr (by simp [hx])
      · rcases ih x (by simpa using hx) with h | h
        · exact Or.inl h
        · exact Or.inr (by simp [List.mem_map] at h ⊢; tauto)

lemma mapSet_nodup (m : List (String × Nat)) (k : String) (v : Nat)
    (h : (m.map Prod.fst).Nodup) : ((mapSet m k v).map Prod.fst).Nodup := by
  induction m with
  | nil => simp [mapSet]
  | cons kv rest ih =>
    obtain ⟨k2, v2⟩ := kv
    simp only [List.map_cons, List.nodup_cons] at h
    by_cases hk : k2 = k
    · subst hk
      simpa [mapSet] using h
    · have hrest := ih h.2
      simp only [mapSet, hk, if_false, List.map_cons, List.nodup_cons]
      refine ⟨fun hmem => ?_, hrest⟩
      rcases mapSet_keys_sub rest k v k2 hmem with hEq | hIn
      · exact hk hEq
      · exact h.1 hIn

lemma mapGet_mem_values (m : List (String × Nat)) (k : String) (h : Nat)
    (hget : mapGet m k = some h) : h ∈ m.map Prod.snd := by
  induction m with
  | nil => simp [mapGet] at hget
  | cons kv rest ih =>
    obtain ⟨k2, v2⟩ := kv
    by_cases hk : k2 = k
    · simp [mapGet, hk] at hget
      simp [hget]
    · simp only [mapGet, hk, if_false] at hget
      simp [ih hget]

lemma mapDelete_sublist (m : List (String × Nat)) (k : String) :
    (mapDelete m k).Sublist m := by
  induction m with
  | nil => simp [mapDelete]
  | cons kv rest ih =>
    obtain ⟨k2, v2⟩ := kv
    by_cases hk : k2 = k
    · simp [mapDelete, hk]
    · simpa [mapDelete, hk] using ih.cons₂ (k2, v2)

lemma mapSet_mapSet (m : List (String × Nat)) (k : String) (v1 v2 : Nat) :
    mapSet (mapSet m k v1) k v2 = mapSet m k v2 := by
  induction m with
  | nil => simp [mapSet]
  | cons kv rest ih =>
    obtain ⟨k2, v2'⟩ := kv
    by_cases hk : k2 = k
    · simp [mapSet, hk]
    · simp [mapSet, hk, ih]

lemma mapGet_mapSet_self (m : List (String × Nat)) (k : String) (v : Nat) :
    mapGet (mapSet m k v) k = some v := by
  induction m with
  | nil => simp [mapSet, mapGet]
  | cons kv rest ih =>
    obtain ⟨k2, v2⟩ := kv
    by_cases hk : k2 = k
    · simp [mapSet, mapGet, hk]
    · simp [mapSet, mapGet, hk, ih]

lemma brokerStep_request (s : BrokerState) (p : String) (h : Nat) :
    brokerStep s (.request p h) = ⟨mapSet s.pending p h, s.log⟩ := rfl

lemma brokerStep_granted_none (s : BrokerState) (p : String) (d : Buffer)
    (hget : mapGet s.pending p = none) : brokerStep s (.granted p d) = s := by
  simp [brokerStep, hget]

lemma brokerStep_granted_some (s : BrokerState) (p : String) (d : Buffer)
    (h : Nat) (hget : mapGet s.pending p = some h) :
    brokerStep s (.granted p d)
      = ⟨mapDelete s.pending p, s.log ++ [(h, .resolved d)]⟩ := by
  simp [brokerStep, hget]

lemma brokerStep_denied_none (s : BrokerState) (p : String) (e : String)
    (hget : mapGet s.pending p = none) : brokerStep s (.denied p e) = s := by
  simp [brokerStep, hget]

lemma brokerStep_denied_some (s : BrokerState) (p : String) (e : String)
    (h : Nat) (hget : mapGet s.pending p = some h) :
    brokerStep s (.denied p e)
      = ⟨mapDelete s.pending p, s.log ++ [(h, .rejected e)]⟩ := by
  simp [brokerStep, hget]

lemma brokerStep_nodup (s : BrokerState) (e : BrokerEvent)
    (h : (s.pending.map Prod.fst).Nodup) :
    ((brokerStep s e).pending.map Prod.fst).Nodup := by
  cases e with
  | request p h2 => exact mapSet_nodup _ _ _ h
  | granted p d =>
    cases hget : mapGet s.pending p with
    | none =>
      rw [brokerStep_granted_none s p d hget]
      exact h
    | some h3 =>
      rw [brokerStep_granted_some s p d h3 hget]
      exact ((mapDelete_sublist s.pending p).map Prod.fst).nodup h
  | denied p e2 =>
    cases hget : mapGet s.pending p with
    | none =>
      rw [brokerStep_denied_none s p e2 hget]
      exact h
    | some h3 =>
      rw [brokerStep_denied_some s p e2 h3 hget]
      exact ((mapDelete_sublist s.pending p).map Prod.fst).nodup h

lemma brokerRun_nodup (evs : List BrokerEvent) :
    ∀ s : BrokerState, (s.pending.map Prod.fst).Nodup →
      ((brokerRun s evs).pending.map Prod.fst).Nodup := by
  induction evs with
  | nil => intro s h; exact h
  | cons e rest ih =>
    intro s h
    exact ih (brokerStep s e) (brokerStep_nodup s e h)

lemma brokerStep_orphan (h1 : Nat) (s : BrokerState) (e : BrokerEvent)
    (he : usesHandle h1 e = false)
    (hp : h1 ∉ s.pending.map Prod.snd)
    (hl : h1 ∉ s.log.map Prod.fst) :
    h1 ∉ (brokerStep s e).pending.map Prod.snd ∧
    h1 ∉ (brokerStep s e).log.map Prod.fst := by
  cases e with
  | request p h2 =>
    have hne : h2 ≠ h1 := by simpa [usesHandle] using he
    refine ⟨fun hmem => ?_, hl⟩
    rcases mapSet_values_sub s.pending p h2 h1 hmem with hEq | hIn
    · exact hne hEq.symm
    · exact hp hIn
  | granted p d =>
    cases hget : mapGet s.pending p with
    | none =>
      rw [brokerStep_granted_none s p d hget]
      exact ⟨hp, hl⟩
    | some h3 =>
      rw [brokerStep_granted_some s p d h3 hget]
      have h3ne : h3 ≠ h1 :=
        fun hEq => hp (hEq ▸ mapGet_mem_values s.pending p h3 hget)
      refine ⟨fun hmem => ?_, fun hmem => ?_⟩
      · exact hp (((mapDelete_sublist s.pending p).map Prod.snd).subset hmem)
      · rw [List.map_append] at hmem
        rcases List.mem_append.mp hmem with hmem | hmem
        · exact hl hmem
        · simp at hmem
          exact h3ne hmem.symm
  | denied p e2 =>
    cases hget : mapGet s.pending p with
    | none =>
      rw [brokerStep_denied_none s p e2 hget]
      exact ⟨hp, hl⟩
    | some h3 =>
      rw [brokerStep_denied_some s p e2 h3 hget]
      have h3ne : h3 ≠ h1 :=
        fun hEq => hp (hEq ▸ mapGet_mem_values s.pending p h3 hget)
      refine ⟨fun hmem => ?_, fun hmem => ?_⟩
      · exact hp (((mapDelete_sublist s.pending p).map Prod.snd).subset hmem)
      · rw [List.map_append] at hmem
        rcases List.mem_append.mp hmem with hmem | hmem
        · exact hl hmem
        · simp at hmem
          exact h3ne hmem.symm

lemma brokerRun_orphan (h1 : Nat) (evs : List BrokerEvent) :
    ∀ s : BrokerState, (∀ e ∈ evs, usesHandle h1 e = false) →
      h1 ∉ s.pending.map Prod.snd → h1 ∉ s.log.map Prod.fst →
      h1 ∉ (brokerRun s evs).pending.map Prod.snd ∧
      h1 ∉ (brokerRun s evs).log.map Prod.fst := by
  induction evs with
  | nil => intro s _ hp hl; exact ⟨hp, hl⟩
  | cons e rest ih =>
    intro s hall hp hl
    have hstep := brokerStep_orphan h1 s e (hall e (List.mem_cons_self e rest))
      hp hl
    exact ih (brokerStep s e)
      (fun x hx => hall x (List.mem_cons_of_mem e hx)) hstep.1 hstep.2

/-- C7: the pending-request table keeps at most one tracked entry per
path in every reachable state (the path keys stay pairwise distinct);
when a second request for path `p` is registered (handle `h2`) while the
first (fresh handle `h1`) is still pending, the stored entry for `p` is
`h2`; the first handle is never settled — it never appears in the
settlement log, whatever the host replies afterwards; and a host grant
for `p` then settles exactly the second handle. -/
theorem c7_pending_overwrite (p : String) (h1 h2 : Nat) (d : Buffer)
    (pre evs : List BrokerEvent)
    (hpre : ∀ e ∈ pre, usesHandle h1 e = false)
    (hevs : ∀ e ∈ evs, usesHandle h1 e = false)
    (hne : h1 ≠ h2) :
    (∀ evs2 : List BrokerEvent,
      ((brokerRun initBrokerState evs2).pending.map Prod.fst).Nodup) ∧
    mapGet (brokerRun initBrokerState
        (pre ++ [BrokerEvent.request p h1, BrokerEvent.request p h2])).pending p
      = some h2 ∧
    h1 ∉ (brokerRun initBrokerState
        ((pre ++ [BrokerEvent.request p h1, BrokerEvent.request p h2]) ++
          evs)).log.map Prod.fst ∧
    (brokerRun initBrokerState
        (pre ++ [BrokerEvent.request p h1, BrokerEvent.request p h2,
                 BrokerEvent.granted p d])).log
      = (brokerRun initBrokerState pre).log ++ [(h2, Resolution.resolved d)] := by
  have happ : ∀ l2, brokerRun initBrokerState (pre ++ l2)
      = brokerRun (brokerRun initBrokerState pre) l2 := by
    intro l2
    unfold brokerRun
    rw [List.foldl_append]
  have horphan := brokerRun_orphan h1 pre initBrokerState hpre
    (by simp [initBrokerState]) (by simp [initBrokerState])
  set s := brokerRun initBrokerState pre with hsdef
  have hs2 : brokerRun s [BrokerEvent.request p h1, BrokerEvent.request p h2]
      = ⟨mapSet s.pending p h2, s.log⟩ := by
    simp [brokerRun, brokerStep, mapSet_mapSet]
  have hp2 : h1 ∉ (mapSet s.pending p h2).map Prod.snd := by
    intro hmem
    rcases mapSet_values_sub s.pending p h2 h1 hmem with hEq | hIn
    · exact hne hEq
    · exact horphan.1 hIn
  refine ⟨?_, ?_, ?_, ?_⟩
  · intro evs2
    exact brokerRun_nodup evs2 initBrokerState (by simp [initBrokerState])
  · rw [happ, hs2]
    exact mapGet_mapSet_self s.pending p h2
  · rw [List.append_assoc, happ, brokerRun, List.foldl_append]
    show h1 ∉ (brokerRun (brokerRun s
      [BrokerEvent.request p h1, BrokerEvent.request p h2]) evs).log.map Prod.fst
    rw [hs2]
    exact (brokerRun_orphan h1 evs ⟨mapSet s.pending p h2, s.log⟩ hevs hp2
      horphan.2).2
  · rw [happ]
    show (brokerRun s [BrokerEvent.request p h1, BrokerEvent.request p h2,
      BrokerEvent.granted p d]).log = s.log ++ [(h2, Resolution.resolved d)]
    simp [brokerRun, brokerStep, mapSet_mapSet, mapGet_mapSet_self]

/-- C7 witness: a concrete double registration for one path followed by
a grant, settling only the second handle. -/
theorem c7_pending_overwrite_witness :
    (∀ evs2 : List BrokerEvent,
      ((brokerRun initBrokerState evs2).pending.map Prod.fst).Nodup) ∧
    mapGet (brokerRun initBrokerState
        ([] ++ [BrokerEvent.request "/tmp/x.csv" 1,
                BrokerEvent.request "/tmp/x.csv" 2])).pending "/tmp/x.csv"
      = some 2 ∧
    1 ∉ (brokerRun initBrokerState
        (([] ++ [BrokerEvent.request "/tmp/x.csv" 1,
                 BrokerEvent.request "/tmp/x.csv" 2]) ++
          [BrokerEvent.granted "/tmp/x.csv" [9]])).log.map Prod.fst ∧
    (brokerRun initBrokerState
        ([] ++ [BrokerEvent.request "/tmp/x.csv" 1,
                BrokerEvent.request "/tmp/x.csv" 2,
                BrokerEvent.granted "/tmp/x.csv" [9]])).log
      = (brokerRun initBrokerState []).log ++ [(2, Resolution.resolved [9])] :=
  c7_pending_overwrite "/tmp/x.csv" 1 2 [9] []
    [BrokerEvent.granted "/tmp/x.csv" [9]]
    (by intro e he; simp at he)
    (by intro e he; simp at he; subst he; rfl)
    (by decide)

end DuckDBNotebook

